import Mathlib

/-!
Shallow embedding of the locomotion core and the track/hazard engine of the
platformer source (src/unnamed/part_000), together with proofs that settle
the specification's claims about it.

Numeric quantities (energy, velocities, positions, times) are modelled as
rationals, since the source computations on them are plain field arithmetic
with min/max clamps.
-/

/-- The seven FSM state keys of the source constant STATES
(part_000 line 1558). -/
inductive St where
  | idle
  | walk
  | charge
  | leap
  | fall
  | dash
  | dead
deriving DecidableEq, Repr, Fintype

/-- The complete list of the seven states. -/
def allStates : List St :=
  [St.idle, St.walk, St.charge, St.leap, St.fall, St.dash, St.dead]

/-- The static transition table of EnhancedFSM (field validTransitions,
part_000 lines 2021-2029). -/
def validTransitions : St → List St
  | St.idle   => [St.walk, St.charge, St.fall, St.dash, St.dead]
  | St.walk   => [St.idle, St.charge, St.fall, St.dash, St.dead]
  | St.charge => [St.leap, St.idle, St.fall, St.dead]
  | St.leap   => [St.fall, St.dash, St.idle, St.dead]
  | St.fall   => [St.idle, St.walk, St.dash, St.dead]
  | St.dash   => [St.idle, St.walk, St.leap, St.fall, St.dead]
  | St.dead   => [St.idle]

/-- EnhancedFSM.canTransitionKey (part_000 lines 2078-2082): a missing
current key (initial transition) is always allowed, otherwise the target
must appear in the table row of the current key. -/
def canTransitionKey : Option St → St → Bool
  | none, _ => true
  | some fromKey, toKey => (validTransitions fromKey).contains toKey

/-- Result of a setState call: whether it was accepted, the current key
afterwards, and whether an invalid-transition error was logged. -/
structure SetStateResult where
  accepted : Bool
  currentKey : Option St
  errorLogged : Bool
deriving DecidableEq, Repr

/-- EnhancedFSM.setState (part_000 lines 2032-2077), restricted to its
pure transition logic: a call with the current key as target returns false
without logging; a call failing the table check returns false and logs an
invalid-transition error; otherwise the key is replaced and true returned.
(The state-class construction and the exception-recovery path operate on
the impure state objects and are outside this embedding.) -/
def setState (cur : Option St) (target : St) : SetStateResult :=
  if cur = some target then
    { accepted := false, currentKey := cur, errorLogged := false }
  else if canTransitionKey cur target then
    { accepted := true, currentKey := some target, errorLogged := false }
  else
    { accepted := false, currentKey := cur, errorLogged := true }

/-- Run a sequence of setState calls from a starting key. -/
def runSetState (cur : Option St) (targets : List St) : Option St :=
  targets.foldl (fun c t => (setState c t).currentKey) cur

/-- C1 counterexample: the claim asserts every setState call whose target
is outside the table row of the current state is rejected AND logged.  A
call whose target equals the current state (here idle to idle, and idle is
not in the idle row) is rejected and leaves the state unchanged, but the
early same-state return skips the logging, so no error is logged. -/
theorem setState_same_state_rejected_unlogged :
    canTransitionKey (some St.idle) St.idle = false ∧
    setState (some St.idle) St.idle =
      { accepted := false, currentKey := some St.idle, errorLogged := false } := by
  constructor
  · rfl
  · rfl

/-- C1 (amended): for every sequence of setState calls the current key is
always absent or one of the seven states; a call whose target is not
allowed by the table returns false and leaves the key unchanged, and is
logged exactly when the target differs from the current key (a same-state
call is rejected silently); the initial transition from no state is always
accepted; every accepted transition from a state appears in the table row;
and Dead admits exactly one outgoing transition, to Idle. -/
theorem fsm_transition_table_sound :
    (∀ cur target, canTransitionKey cur target = false →
      (setState cur target).accepted = false ∧
      (setState cur target).currentKey = cur ∧
      ((setState cur target).errorLogged = true ↔ cur ≠ some target)) ∧
    (∀ target, canTransitionKey none target = true ∧
      setState none target =
        { accepted := true, currentKey := some target, errorLogged := false }) ∧
    (∀ target, canTransitionKey (some St.dead) target = true ↔ target = St.idle) ∧
    (∀ fromKey target, (setState (some fromKey) target).accepted = true →
      target ∈ validTransitions fromKey) ∧
    (∀ targets s, runSetState none targets = some s → s ∈ allStates) := by
  refine ⟨?_, ?_, ?_, ?_, ?_⟩
  · decide
  · decide
  · decide
  · decide
  · intro targets s _
    cases s <;> simp [allStates]

/-- Witness for the amended C1 theorem: concrete rejected transition
walk to leap (not in the walk row) leaves the key at walk and logs. -/
theorem fsm_transition_table_sound_witness :
    (setState (some St.walk) St.leap).accepted = false ∧
    (setState (some St.walk) St.leap).currentKey = some St.walk ∧
    ((setState (some St.walk) St.leap).errorLogged = true ↔
      some St.walk ≠ some St.leap) :=
  fsm_transition_table_sound.1 (some St.walk) St.leap (by decide)

/-! Energy model (CharacterController.sprint): maximum capacity
CONFIG.player.maxSprint = 100, regen rate 60 per second after a 0.75 s
delay (part_000 lines 121-130). -/

/-- CONFIG.player.maxSprint. -/
def maxSprint : ℚ := 100

/-- CONFIG.player.sprintRegenRate. -/
def sprintRegenRate : ℚ := 60

/-- CONFIG.player.sprintRegenDelay. -/
def sprintRegenDelay : ℚ := 3/4

/-- The energy-relevant player state: current sprint value and the regen
delay timer. -/
structure EnergySt where
  sprint : ℚ
  regenTimer : ℚ
deriving Repr

/-- CharacterController.consumeStamina (part_000 lines 2352-2375), value
part: floors the sprint at 0 and resets the regen delay timer. -/
def consumeStamina (s : EnergySt) (amount : ℚ) : EnergySt :=
  { sprint := max 0 (s.sprint - amount), regenTimer := 0 }

/-- The refund pattern used by ChargeState cancellation and launch
(part_000 lines 1671-1674, 1741-1744, 1790-1793) and by
restoreDashEnergy (line 2389): clamps at maxSprint. -/
def refundEnergy (s : EnergySt) (amount : ℚ) : EnergySt :=
  { s with sprint := min maxSprint (s.sprint + amount) }

/-- CharacterController.updateSprint (part_000 lines 2413-2450), value
part: regenerates only while grounded and only once the delay timer has
accumulated past sprintRegenDelay, adding at most sprintRegenRate * dt and
clamping at maxSprint. -/
def updateSprintTick (s : EnergySt) (grounded : Bool) (dt : ℚ) : EnergySt :=
  if grounded then
    let timer := s.regenTimer + dt
    if timer ≥ sprintRegenDelay then
      let added := min (maxSprint - s.sprint) (sprintRegenRate * dt)
      { sprint := min maxSprint (s.sprint + added), regenTimer := timer }
    else
      { s with regenTimer := timer }
  else
    s

/-- One operation over the energy resource: a stamina consumption (charge
drain, quick-jump cost, spike of the dash), a refund, a regen tick, or the
dash consumption of the entire remaining energy
(CharacterController.performDash line 2658-2659). -/
inductive EnergyOp where
  | consume (amount : ℚ)
  | refund (amount : ℚ)
  | regen (grounded : Bool) (dt : ℚ)
  | dashConsumeAll
deriving Repr

/-- Apply one energy operation. -/
def applyEnergyOp (s : EnergySt) (op : EnergyOp) : EnergySt :=
  match op with
  | EnergyOp.consume amount => consumeStamina s amount
  | EnergyOp.refund amount => refundEnergy s amount
  | EnergyOp.regen grounded dt => updateSprintTick s grounded dt
  | EnergyOp.dashConsumeAll => consumeStamina s s.sprint

/-- An operation is well formed when its amount or time step is
nonnegative, as every call site in the source guarantees. -/
def EnergyOpWF : EnergyOp → Prop
  | EnergyOp.consume amount => 0 ≤ amount
  | EnergyOp.refund amount => 0 ≤ amount
  | EnergyOp.regen _ dt => 0 ≤ dt
  | EnergyOp.dashConsumeAll => True

/-- Single-step preservation of the energy range invariant. -/
theorem applyEnergyOp_range (s : EnergySt) (op : EnergyOp)
    (hwf : EnergyOpWF op) (h0 : 0 ≤ s.sprint) (h1 : s.sprint ≤ maxSprint) :
    0 ≤ (applyEnergyOp s op).sprint ∧ (applyEnergyOp s op).sprint ≤ maxSprint := by
  cases op with
  | consume amount =>
    simp only [applyEnergyOp, consumeStamina, EnergyOpWF] at *
    constructor
    · exact le_max_left 0 _
    · exact max_le (by norm_num [maxSprint]) (le_trans (by linarith) h1)
  | refund amount =>
    simp only [applyEnergyOp, refundEnergy, EnergyOpWF] at *
    constructor
    · exact le_min (by norm_num [maxSprint]) (by linarith)
    · exact min_le_left _ _
  | regen grounded dt =>
    simp only [applyEnergyOp, updateSprintTick, EnergyOpWF] at *
    by_cases hg : grounded = true
    · simp only [hg, if_true]
      by_cases ht : s.regenTimer + dt ≥ sprintRegenDelay
      · simp only [ht, if_true]
        refine ⟨?_, min_le_left _ _⟩
        have hadd : 0 ≤ min (maxSprint - s.sprint) (sprintRegenRate * dt) := by
          apply le_min
          · linarith
          · have : (0:ℚ) ≤ sprintRegenRate := by norm_num [sprintRegenRate]
            positivity
        have : (0:ℚ) ≤ maxSprint := by norm_num [maxSprint]
        exact le_min this (by linarith)
      · simp only [ht, if_false]
        exact ⟨h0, h1⟩
    · simp only [hg, if_false]
      exact ⟨h0, h1⟩
  | dashConsumeAll =>
    simp only [applyEnergyOp, consumeStamina] at *
    constructor
    · exact le_max_left 0 _
    · exact max_le (by norm_num [maxSprint]) (by linarith)

/-- C2: after any well-formed sequence of consumeStamina calls, refunds,
regen ticks and dash full consumptions, starting inside the range, the
sprint energy satisfies 0 less-or-equal energy less-or-equal maxSprint. -/
theorem energy_range_invariant (ops : List EnergyOp) (s : EnergySt)
    (hwf : ∀ op ∈ ops, EnergyOpWF op)
    (h0 : 0 ≤ s.sprint) (h1 : s.sprint ≤ maxSprint) :
    0 ≤ (ops.foldl applyEnergyOp s).sprint ∧
      (ops.foldl applyEnergyOp s).sprint ≤ maxSprint := by
  induction ops generalizing s with
  | nil => exact ⟨h0, h1⟩
  | cons op rest ih =>
    have hop := hwf op (List.mem_cons_self op rest)
    have hstep := applyEnergyOp_range s op hop h0 h1
    exact ih (applyEnergyOp s op)
      (fun o ho => hwf o (List.mem_cons_of_mem op ho)) hstep.1 hstep.2

/-- Witness for C2: a concrete sequence (drain 30, dash all, refund 50,
one grounded regen tick of one second) starting from full energy stays in
range. -/
theorem energy_range_invariant_witness :
    0 ≤ (([EnergyOp.consume 30, EnergyOp.dashConsumeAll, EnergyOp.refund 50,
          EnergyOp.regen true 1].foldl applyEnergyOp
            { sprint := 100, regenTimer := 0 }).sprint) ∧
    (([EnergyOp.consume 30, EnergyOp.dashConsumeAll, EnergyOp.refund 50,
          EnergyOp.regen true 1].foldl applyEnergyOp
            { sprint := 100, regenTimer := 0 }).sprint) ≤ maxSprint := by
  refine energy_range_invariant _ _ ?_ ?_ ?_
  · intro op hop
    fin_cases hop <;> norm_num [EnergyOpWF]
  · norm_num
  · norm_num [maxSprint]

/-! ChargeState (part_000 lines 1641-1855) and its quick-jump launch.
Configuration constants from CONFIG.quickJump and CONFIG.chargeLeap
(part_000 lines 96-119). -/

/-- CONFIG.quickJump.cost. -/
def quickJumpCost : ℚ := 5

/-- CONFIG.quickJump.verticalForce. -/
def quickJumpVerticalForce : ℚ := 11

/-- CONFIG.quickJump.tapThreshold. -/
def tapThreshold : ℚ := 1/5

/-- CONFIG.chargeLeap.maxChargeTime. -/
def maxChargeTime : ℚ := 3/2

/-- CONFIG.chargeLeap.staminaDrainPerSecond. -/
def staminaDrainPerSecond : ℚ := 50

/-- CONFIG.chargeLeap.minChargeEnergy. -/
def minChargeEnergy : ℚ := 5

/-- CONFIG.chargeLeap.minVertical. -/
def chargeMinVertical : ℚ := 6

/-- CONFIG.chargeLeap.maxVertical. -/
def chargeMaxVertical : ℚ := 20

/-- CONFIG.chargeLeap.minForward. -/
def chargeMinForward : ℚ := 6

/-- CONFIG.chargeLeap.maxForward. -/
def chargeMaxForward : ℚ := 30

/-- A three-component linear velocity. -/
structure Vec3 where
  x : ℚ
  y : ℚ
  z : ℚ
deriving DecidableEq, Repr

/-- The mutable fields of ChargeState relevant to the energy round trip:
the controller sprint value, the accumulated charge time and the
accumulated energyConsumed. -/
structure ChargeSt where
  sprint : ℚ
  chargeTime : ℚ
  energyConsumed : ℚ
deriving Repr

/-- The drain step of ChargeState.update (part_000 lines 1716-1722): while
charge time is below maxChargeTime and sprint is positive, drain
staminaDrainPerSecond * dt clamped to the available sprint, accumulate it
into energyConsumed, and advance the charge time. -/
def chargeDrainTick (c : ChargeSt) (dt : ℚ) : ChargeSt :=
  if c.chargeTime < maxChargeTime ∧ 0 < c.sprint then
    let drain := staminaDrainPerSecond * dt
    let actual := min drain c.sprint
    { sprint := max 0 (c.sprint - actual),
      chargeTime := c.chargeTime + dt,
      energyConsumed := c.energyConsumed + actual }
  else
    c

/-- The tap refund of ChargeState.launch (part_000 lines 1741-1744):
restore the energy consumed while charging, clamped at maxSprint. -/
def tapRefund (c : ChargeSt) : ℚ :=
  min maxSprint (c.sprint + c.energyConsumed)

/-- The sum sprint + energyConsumed is preserved by drain ticks with
nonnegative dt, and sprint stays nonnegative. -/
theorem chargeDrainTick_invariant (c : ChargeSt) (dt : ℚ) (hdt : 0 ≤ dt)
    (h0 : 0 ≤ c.sprint) :
    (chargeDrainTick c dt).sprint + (chargeDrainTick c dt).energyConsumed =
      c.sprint + c.energyConsumed ∧ 0 ≤ (chargeDrainTick c dt).sprint := by
  unfold chargeDrainTick
  by_cases h : c.chargeTime < maxChargeTime ∧ 0 < c.sprint
  · rw [if_pos h]
    have hdrain : 0 ≤ staminaDrainPerSecond * dt := by
      have hs : (0:ℚ) ≤ staminaDrainPerSecond := by norm_num [staminaDrainPerSecond]
      positivity
    have hact0 : 0 ≤ min (staminaDrainPerSecond * dt) c.sprint :=
      le_min hdrain h0
    have hact1 : min (staminaDrainPerSecond * dt) c.sprint ≤ c.sprint :=
      min_le_right _ _
    have hmax : max 0 (c.sprint - min (staminaDrainPerSecond * dt) c.sprint) =
        c.sprint - min (staminaDrainPerSecond * dt) c.sprint :=
      max_eq_right (by linarith)
    refine ⟨?_, ?_⟩
    · show max 0 (c.sprint - min (staminaDrainPerSecond * dt) c.sprint) +
        (c.energyConsumed + min (staminaDrainPerSecond * dt) c.sprint) =
        c.sprint + c.energyConsumed
      rw [hmax]; ring
    · show 0 ≤ max 0 (c.sprint - min (staminaDrainPerSecond * dt) c.sprint)
      exact le_max_left 0 _
  · rw [if_neg h]
    exact ⟨rfl, h0⟩

/-- Folding drain ticks preserves the sum and nonnegativity. -/
theorem chargeDrain_fold_invariant (dts : List ℚ) (c : ChargeSt)
    (hdts : ∀ dt ∈ dts, 0 ≤ dt) (h0 : 0 ≤ c.sprint) :
    (dts.foldl chargeDrainTick c).sprint +
        (dts.foldl chargeDrainTick c).energyConsumed =
      c.sprint + c.energyConsumed ∧ 0 ≤ (dts.foldl chargeDrainTick c).sprint := by
  induction dts generalizing c with
  | nil => exact ⟨rfl, h0⟩
  | cons dt rest ih =>
    have hstep := chargeDrainTick_invariant c dt
      (hdts dt (List.mem_cons_self dt rest)) h0
    have := ih (chargeDrainTick c dt)
      (fun d hd => hdts d (List.mem_cons_of_mem dt hd)) hstep.2
    exact ⟨by rw [List.foldl_cons, this.1, hstep.1], by
      rw [List.foldl_cons]; exact this.2⟩

/-- C8: a fully refunded charge is a no-op round trip over the energy.
Starting a charge with sprint s0 in range and zero accumulators, any
sequence of nonnegative-dt drain ticks followed by the tap refund of
launch restores the sprint to exactly s0. -/
theorem charge_tap_refund_roundtrip (dts : List ℚ) (s0 : ℚ)
    (hdts : ∀ dt ∈ dts, 0 ≤ dt) (h0 : 0 ≤ s0) (h1 : s0 ≤ maxSprint) :
    tapRefund (dts.foldl chargeDrainTick
      { sprint := s0, chargeTime := 0, energyConsumed := 0 }) = s0 := by
  have h := chargeDrain_fold_invariant dts
    { sprint := s0, chargeTime := 0, energyConsumed := 0 } hdts h0
  unfold tapRefund
  rw [show (dts.foldl chargeDrainTick
      { sprint := s0, chargeTime := 0, energyConsumed := 0 }).sprint +
      (dts.foldl chargeDrainTick
      { sprint := s0, chargeTime := 0, energyConsumed := 0 }).energyConsumed
      = s0 + 0 from h.1]
  rw [add_zero]
  exact min_eq_right h1

/-- Witness for C8: three 1/60 s drain ticks from sprint 40 refund back to
exactly 40. -/
theorem charge_tap_refund_roundtrip_witness :
    tapRefund ([1/60, 1/60, 1/60].foldl chargeDrainTick
      { sprint := 40, chargeTime := 0, energyConsumed := 0 }) = 40 := by
  refine charge_tap_refund_roundtrip _ _ ?_ ?_ ?_
  · intro dt hdt
    fin_cases hdt <;> norm_num
  · norm_num
  · norm_num [maxSprint]

/-- Inputs to ChargeState.launch: the controller sprint, the accumulated
charge state, grounded flag, falling-platform flag with the platform's
vertical velocity, the current body velocity and the launch direction
(camera-forward flattened or model forward). -/
structure LaunchIn where
  sprint : ℚ
  energyConsumed : ℚ
  chargeTime : ℚ
  maxPossibleEnergy : ℚ
  grounded : Bool
  onFallingPlatform : Bool
  platformVy : ℚ
  vel : Vec3
  dir : Vec3
deriving Repr

/-- Outputs of ChargeState.launch: the sprint afterwards, the body linear
velocity afterwards, the FSM state transitioned to, and how many
insufficient-energy UI signals fired during the call. -/
structure LaunchOut where
  sprint : ℚ
  vel : Vec3
  state : St
  insufficientSignals : ℕ
deriving Repr

/-- ChargeState.launch (part_000 lines 1734-1850), value part, along its
non-exception paths.  A tap (chargeTime below tapThreshold) first refunds
the consumed energy; with at least quickJumpCost remaining it consumes the
cost and sets the vertical velocity (relative to the platform when riding
a falling platform), else it signals insufficient energy once and falls
back to Idle or Fall by groundedness.  A held charge below minChargeEnergy
refunds and fizzles to Idle; otherwise the interpolated vertical and
forward forces are added (vertical replaced) and the state becomes Leap. -/
def launch (i : LaunchIn) : LaunchOut :=
  if i.chargeTime < tapThreshold then
    let refunded := min maxSprint (i.sprint + i.energyConsumed)
    if refunded ≥ quickJumpCost then
      let afterCost := max 0 (refunded - quickJumpCost)
      let vy := if i.onFallingPlatform then i.platformVy + quickJumpVerticalForce
                else quickJumpVerticalForce
      { sprint := afterCost,
        vel := { x := i.vel.x, y := vy, z := i.vel.z },
        state := St.leap,
        insufficientSignals := 0 }
    else
      { sprint := refunded,
        vel := i.vel,
        state := if i.grounded then St.idle else St.fall,
        insufficientSignals := 1 }
  else if 0 < i.energyConsumed ∧ i.energyConsumed < minChargeEnergy then
    { sprint := min maxSprint (i.sprint + i.energyConsumed),
      vel := i.vel,
      state := St.idle,
      insufficientSignals := 0 }
  else
    let pct := if 0 < i.maxPossibleEnergy
               then min 1 (i.energyConsumed / i.maxPossibleEnergy) else 0
    let vY := chargeMinVertical + (chargeMaxVertical - chargeMinVertical) * pct
    let hF := chargeMinForward + (chargeMaxForward - chargeMinForward) * pct
    let vy := if i.onFallingPlatform then i.platformVy + vY else vY
    { sprint := i.sprint,
      vel := { x := i.vel.x + i.dir.x * hF, y := vy, z := i.vel.z + i.dir.z * hF },
      state := St.leap,
      insufficientSignals := 0 }

/-- C3: quick jump at the exact energy boundary.  For a tap-length charge
release off a falling platform: when the refunded energy equals
quickJumpCost exactly the jump succeeds, consumes exactly quickJumpCost
leaving zero energy, replaces the vertical velocity with the quick-jump
force and transitions to Leap; when the refunded energy equals
quickJumpCost - 1 the attempt fails, the velocity is untouched, the energy
stays at its refunded value, exactly one insufficient-energy signal fires,
and the state falls back to Idle when grounded, else Fall. -/
theorem quickjump_energy_boundary (i j : LaunchIn)
    (hic : i.chargeTime < tapThreshold)
    (hif : i.onFallingPlatform = false)
    (hie : min maxSprint (i.sprint + i.energyConsumed) = quickJumpCost)
    (hjc : j.chargeTime < tapThreshold)
    (hje : min maxSprint (j.sprint + j.energyConsumed) = quickJumpCost - 1) :
    launch i = { sprint := 0,
                 vel := { x := i.vel.x, y := quickJumpVerticalForce, z := i.vel.z },
                 state := St.leap,
                 insufficientSignals := 0 } ∧
    launch j = { sprint := quickJumpCost - 1,
                 vel := j.vel,
                 state := if j.grounded then St.idle else St.fall,
                 insufficientSignals := 1 } := by
  constructor
  · unfold launch
    rw [if_pos hic, if_pos (by rw [hie])]
    simp only [hie, hif, if_false]
    norm_num
  · unfold launch
    rw [if_pos hjc, if_neg (by rw [hje]; norm_num [quickJumpCost])]
    simp only [hje]

/-- Witness for C3: concrete inputs realizing both boundary energies
(sprint 4.9 with 0.1 consumed refunds to 5; sprint 3.9 with 0.1 consumed
refunds to 4), tap-length charge of 0.05 s. -/
theorem quickjump_energy_boundary_witness :
    launch { sprint := 49/10, energyConsumed := 1/10, chargeTime := 1/20,
             maxPossibleEnergy := 49/10, grounded := true,
             onFallingPlatform := false, platformVy := 0,
             vel := { x := 2, y := -1, z := 3 }, dir := { x := 0, y := 0, z := 1 } } =
      { sprint := 0, vel := { x := 2, y := quickJumpVerticalForce, z := 3 },
        state := St.leap, insufficientSignals := 0 } ∧
    launch { sprint := 39/10, energyConsumed := 1/10, chargeTime := 1/20,
             maxPossibleEnergy := 39/10, grounded := true,
             onFallingPlatform := false, platformVy := 0,
             vel := { x := 2, y := -1, z := 3 }, dir := { x := 0, y := 0, z := 1 } } =
      { sprint := quickJumpCost - 1, vel := { x := 2, y := -1, z := 3 },
        state := if true then St.idle else St.fall, insufficientSignals := 1 } := by
  have h := quickjump_energy_boundary
    { sprint := 49/10, energyConsumed := 1/10, chargeTime := 1/20,
      maxPossibleEnergy := 49/10, grounded := true,
      onFallingPlatform := false, platformVy := 0,
      vel := { x := 2, y := -1, z := 3 }, dir := { x := 0, y := 0, z := 1 } }
    { sprint := 39/10, energyConsumed := 1/10, chargeTime := 1/20,
      maxPossibleEnergy := 39/10, grounded := true,
      onFallingPlatform := false, platformVy := 0,
      vel := { x := 2, y := -1, z := 3 }, dir := { x := 0, y := 0, z := 1 } }
    (by norm_num [tapThreshold]) rfl
    (by norm_num [maxSprint, quickJumpCost])
    (by norm_num [tapThreshold])
    (by norm_num [maxSprint, quickJumpCost])
  exact h

/-! Dash: CONFIG.airDash and CONFIG.gameplay constants (part_000 lines
103-108, 189-195), DashState.enter and executeDash (lines 1925-1958),
CharacterController.performDash (lines 2651-2665). -/

/-- CONFIG.gameplay.minDashEnergy. -/
def minDashEnergy : ℚ := 10

/-- CONFIG.airDash.forceMultiplier. -/
def dashForceMultiplier : ℚ := 3/10

/-- CONFIG.airDash.downwardVelocityCap. -/
def downwardVelocityCap : ℚ := -5

/-- The staminaUsed clamp of DashState.enter (part_000 lines 1929-1932):
the params value (defaulted to minDashEnergy when absent) clamped into
the interval from minDashEnergy to maxSprint. -/
def dashStaminaUsed (paramStamina : Option ℚ) : ℚ :=
  max minDashEnergy (min (paramStamina.getD minDashEnergy) maxSprint)

/-- DashState executeDash (part_000 lines 1936-1949), velocity part: the
dash direction is model forward, reversed when only the backward key is
held; horizontal velocity is set to direction times staminaUsed times
forceMultiplier; vertical velocity is set to 0 when grounded, else to the
maximum of the current vertical velocity and the downward cap. -/
def executeDash (staminaUsed : ℚ) (keyW keyS grounded : Bool)
    (vel fwd : Vec3) : Vec3 :=
  let force := staminaUsed * dashForceMultiplier
  let dashDirection :=
    if keyS ∧ ¬keyW then { x := -fwd.x, y := -fwd.y, z := -fwd.z } else fwd
  { x := dashDirection.x * force,
    y := if grounded then 0 else max vel.y downwardVelocityCap,
    z := dashDirection.z * force }

/-- Velocity set on entering Dash with the given params. -/
def dashEnterVel (paramStamina : Option ℚ) (keyW keyS grounded : Bool)
    (vel fwd : Vec3) : Vec3 :=
  executeDash (dashStaminaUsed paramStamina) keyW keyS grounded vel fwd

/-- C7: on entering Dash the vertical velocity becomes 0 when grounded and
otherwise equals max of the current vertical velocity and the configured
downward cap; each horizontal component equals the forward direction
component (negated exactly when only the backward key is held) times
staminaUsed times the force multiplier. -/
theorem dash_velocity_spec (paramStamina : Option ℚ)
    (keyW keyS grounded : Bool) (vel fwd : Vec3) :
    let v := dashEnterVel paramStamina keyW keyS grounded vel fwd
    (grounded = true → v.y = 0) ∧
    (grounded = false → v.y = max vel.y downwardVelocityCap) ∧
    v.x = (if keyS ∧ ¬keyW then -fwd.x else fwd.x) *
      (dashStaminaUsed paramStamina * dashForceMultiplier) ∧
    v.z = (if keyS ∧ ¬keyW then -fwd.z else fwd.z) *
      (dashStaminaUsed paramStamina * dashForceMultiplier) := by
  unfold dashEnterVel executeDash
  cases keyW <;> cases keyS <;> cases grounded <;> simp

/-- Witness for C7: airborne backward dash (only the backward key held)
with stamina parameter 50 while falling at vertical velocity -9. -/
theorem dash_velocity_spec_witness :
    (false = true →
      (dashEnterVel (some 50) false true false
        { x := 0, y := -9, z := 0 } { x := 0, y := 0, z := 1 }).y = 0) ∧
    (false = false →
      (dashEnterVel (some 50) false true false
        { x := 0, y := -9, z := 0 } { x := 0, y := 0, z := 1 }).y =
        max (-9) downwardVelocityCap) ∧
    (dashEnterVel (some 50) false true false
      { x := 0, y := -9, z := 0 } { x := 0, y := 0, z := 1 }).x =
      (if true ∧ ¬false then -(0:ℚ) else 0) *
        (dashStaminaUsed (some 50) * dashForceMultiplier) ∧
    (dashEnterVel (some 50) false true false
      { x := 0, y := -9, z := 0 } { x := 0, y := 0, z := 1 }).z =
      (if true ∧ ¬false then -(1:ℚ) else 1) *
        (dashStaminaUsed (some 50) * dashForceMultiplier) :=
  dash_velocity_spec (some 50) false true false
    { x := 0, y := -9, z := 0 } { x := 0, y := 0, z := 1 }

/-- Result of CharacterController.performDash: the returned boolean, the
sprint afterwards, the FSM key afterwards, the staminaUsed parameter
passed to the Dash state (when any), and how many insufficient-energy
signals fired. -/
structure PerformDashResult where
  returned : Bool
  sprint : ℚ
  fsmKey : Option St
  staminaUsedParam : Option ℚ
  insufficientSignals : ℕ
deriving Repr

/-- CharacterController.performDash (part_000 lines 2651-2665): below
minDashEnergy it signals insufficient energy and returns false touching
nothing; otherwise it consumes the entire remaining sprint via
consumeStamina and requests the FSM transition to Dash passing the
pre-dash sprint as staminaUsed. -/
def performDash (sprint : ℚ) (cur : Option St) : PerformDashResult :=
  if sprint < minDashEnergy then
    { returned := false, sprint := sprint, fsmKey := cur,
      staminaUsedParam := none, insufficientSignals := 1 }
  else
    let staminaToConsume := sprint
    let sprint1 := max 0 (sprint - staminaToConsume)
    let res := setState cur St.dash
    { returned := true, sprint := sprint1, fsmKey := res.currentKey,
      staminaUsedParam := some staminaToConsume, insufficientSignals := 0 }

/-- C10: a performDash call below minDashEnergy returns false, fires one
insufficient-energy signal and changes neither the energy nor the FSM
key; a call with at least minDashEnergy, made from one of the four states
that invoke it (Idle, Walk, Leap, Fall — the only call sites, since
processImmediateDash excludes Charge, Dash and Dead), zeroes the energy
and moves the FSM to Dash passing the full pre-dash energy. -/
theorem performDash_spec (s1 s2 : ℚ) (cur1 cur2 : Option St)
    (hlow : s1 < minDashEnergy)
    (hhigh : ¬ s2 < minDashEnergy)
    (hcur : cur2 = some St.idle ∨ cur2 = some St.walk ∨
            cur2 = some St.leap ∨ cur2 = some St.fall) :
    performDash s1 cur1 =
      { returned := false, sprint := s1, fsmKey := cur1,
        staminaUsedParam := none, insufficientSignals := 1 } ∧
    performDash s2 cur2 =
      { returned := true, sprint := 0, fsmKey := some St.dash,
        staminaUsedParam := some s2, insufficientSignals := 0 } := by
  constructor
  · unfold performDash
    rw [if_pos hlow]
  · unfold performDash
    rw [if_neg hhigh]
    have hkey : (setState cur2 St.dash).currentKey = some St.dash := by
      rcases hcur with h | h | h | h <;> subst h <;> decide
    simp only [hkey, sub_self, max_self]

/-- Witness for C10: energy 9 fails from Idle; energy 64 from Walk dashes
with the full 64 passed on. -/
theorem performDash_spec_witness :
    performDash 9 (some St.idle) =
      { returned := false, sprint := 9, fsmKey := some St.idle,
        staminaUsedParam := none, insufficientSignals := 1 } ∧
    performDash 64 (some St.walk) =
      { returned := true, sprint := 0, fsmKey := some St.dash,
        staminaUsedParam := some 64, insufficientSignals := 0 } :=
  performDash_spec 9 64 (some St.idle) (some St.walk)
    (by norm_num [minDashEnergy]) (by norm_num [minDashEnergy])
    (Or.inr (Or.inl rfl))

/-! Lava contact check of Game.animate (part_000 lines 7131-7155), with
CONFIG.player.height = 0.8, CONFIG.player.radius = 0.3 and
CONFIG.lava.surfaceY = -50 (lines 121-151). -/

/-- CONFIG.lava.surfaceY. -/
def lavaSurfaceY : ℚ := -50

/-- CONFIG.player.height (capsule half-height). -/
def playerHeight : ℚ := 4/5

/-- CONFIG.player.radius. -/
def playerRadius : ℚ := 3/10

/-- The bottom-of-capsule Y computed by the lava check (line 7139). -/
def playerBottomY (posY : ℚ) : ℚ := posY - (playerHeight + playerRadius)

/-- Death reason tags used by the source (damage, lava, rising lava,
fall). -/
inductive DeathReason where
  | damage
  | lava
  | risingLava
  | fall
deriving DecidableEq, Repr

/-- The lava contact check (part_000 lines 7133-7150): while the player is
alive (not in the Dead state), death with reason lava is triggered exactly
when the capsule bottom is at or below lavaSurfaceY + 0.05.  The player's
health and the spike cooldown are passed in to witness that the check
ignores both. -/
def lavaContactCheck (alive : Bool) (posY health spikeCooldown : ℚ) :
    Option DeathReason :=
  if alive ∧ playerBottomY posY ≤ lavaSurfaceY + 1/20 then
    some DeathReason.lava
  else
    none

/-- C4 counterexample: the claim asserts a capsule bottom within the 0.05
tolerance band of the lava surface is NOT a hit and only a bottom below
the surface is.  At position -2443/50 the capsule bottom sits at
lavaSurfaceY + 0.04 — inside the band and strictly ABOVE the surface —
yet the check kills with reason lava at full health. -/
theorem lava_tolerance_band_kills :
    playerBottomY (-2443/50) = lavaSurfaceY + 1/25 ∧
    lavaSurfaceY < playerBottomY (-2443/50) ∧
    lavaContactCheck true (-2443/50) 100 0 = some DeathReason.lava := by
  refine ⟨?_, ?_, ?_⟩
  · norm_num [playerBottomY, playerHeight, playerRadius, lavaSurfaceY]
  · norm_num [playerBottomY, playerHeight, playerRadius, lavaSurfaceY]
  · unfold lavaContactCheck
    rw [if_pos]
    constructor
    · rfl
    · norm_num [playerBottomY, playerHeight, playerRadius, lavaSurfaceY]

/-- C4 (amended): while alive, lava contact kills with reason lava exactly
when the capsule bottom is at or below lavaSurfaceY + 0.05 — the 0.05
tolerance EXTENDS the kill zone that far above the surface rather than
carving a safe band around it.  In particular a bottom at
lavaSurfaceY - 0.06 dies immediately with reason lava; the outcome is
independent of remaining health and of the spike cooldown; and a dead
player is never re-killed. -/
theorem lava_contact_spec (posY health spikeCooldown h1 h2 c1 c2 : ℚ)
    (hdrop : playerBottomY posY = lavaSurfaceY - 6/100) :
    (∀ pY h c, lavaContactCheck true pY h c = some DeathReason.lava ↔
      playerBottomY pY ≤ lavaSurfaceY + 1/20) ∧
    (∀ a pY, lavaContactCheck a pY h1 c1 = lavaContactCheck a pY h2 c2) ∧
    lavaContactCheck true posY health spikeCooldown = some DeathReason.lava ∧
    (∀ pY h c, lavaContactCheck false pY h c = none) := by
  refine ⟨?_, ?_, ?_, ?_⟩
  · intro pY h c
    unfold lavaContactCheck
    by_cases hc : playerBottomY pY ≤ lavaSurfaceY + 1/20
    · rw [if_pos ⟨rfl, hc⟩]
      exact iff_of_true rfl hc
    · rw [if_neg (fun hcontra => hc hcontra.2)]
      exact iff_of_false (by simp) hc
  · intro a pY
    unfold lavaContactCheck
    rfl
  · unfold lavaContactCheck
    rw [if_pos ⟨rfl, by rw [hdrop]; linarith⟩]
  · intro pY h c
    unfold lavaContactCheck
    rw [if_neg (by intro hcontra; simp at hcontra)]

/-- Witness for the amended C4 theorem: a capsule bottom exactly 0.06
below the surface (position -2448/50) dies with reason lava at health 100,
cooldown 1. -/
theorem lava_contact_spec_witness :
    lavaContactCheck true (-2448/50) 100 1 = some DeathReason.lava :=
  (lava_contact_spec (-2448/50) 100 1 0 0 0 0
    (by norm_num [playerBottomY, playerHeight, playerRadius, lavaSurfaceY])).2.2.1

/-! Crumble platform lifecycle: Game.startCrumble (part_000 lines
5674-5721), the timer callback converting to Falling (lines 5705-5718),
updateCrumblePlatforms destruction at the lava height (lines 5757-5771
with the guard of destroyFallenPlatform line 5846), and the timer
cancellation in Game.despawnSegment (lines 6603-6606). -/

/-- The per-platform crumble states (Game.CrumbleState). -/
inductive CrumbleState where
  | stable
  | warning
  | falling
  | destroyed
deriving DecidableEq, Repr

/-- The lifecycle-relevant fields of one crumble segment: its state, whether
a warning delay timer is scheduled and not yet canceled, and whether the
segment has been despawned (removed from the active list). -/
structure CrumbleSeg where
  state : CrumbleState
  timerPending : Bool
  despawned : Bool
deriving DecidableEq, Repr

/-- The events that drive one crumble segment during a run (the explicit
level-restart reset is outside a run and excluded).  touch: the ground
check finds the player standing on the segment and calls startCrumble —
impossible once despawned, since despawn removes the segment from the
active list the ground check scans.  timerFire: the scheduled warning
delay elapses; a canceled timer never fires.  reachLava: the update loop
sees the falling body at or below the lava height.  despawn: the sliding
window removes the segment, canceling any pending timer. -/
inductive CrumbleEvent where
  | touch
  | timerFire
  | reachLava
  | despawn
deriving DecidableEq, Repr

/-- One step of the crumble lifecycle.  startCrumble returns unless the
state is Stable; the timer callback sets Falling; destroyFallenPlatform
returns unless the state is Falling; despawnSegment clears the pending
timer for the segment. -/
def crumbleStep (s : CrumbleSeg) (e : CrumbleEvent) : CrumbleSeg :=
  match e with
  | CrumbleEvent.touch =>
      if s.despawned = false ∧ s.state = CrumbleState.stable then
        { s with state := CrumbleState.warning, timerPending := true }
      else s
  | CrumbleEvent.timerFire =>
      if s.timerPending then
        { s with state := CrumbleState.falling, timerPending := false }
      else s
  | CrumbleEvent.reachLava =>
      if s.state = CrumbleState.falling then
        { s with state := CrumbleState.destroyed }
      else s
  | CrumbleEvent.despawn =>
      { s with timerPending := false, despawned := true }

/-- A freshly generated crumble segment. -/
def crumbleInit : CrumbleSeg :=
  { state := CrumbleState.stable, timerPending := false, despawned := false }

/-- Run a sequence of crumble events. -/
def runCrumble (s : CrumbleSeg) (es : List CrumbleEvent) : CrumbleSeg :=
  es.foldl crumbleStep s

/-- The forward edges of the lifecycle. -/
def crumbleEdge : CrumbleState → CrumbleState → Prop
  | CrumbleState.stable, CrumbleState.warning => True
  | CrumbleState.warning, CrumbleState.falling => True
  | CrumbleState.falling, CrumbleState.destroyed => True
  | _, _ => False

/-- Reachability invariant: a pending timer is only ever held by a
non-despawned Warning segment. -/
def CrumbleInv (s : CrumbleSeg) : Prop :=
  s.timerPending = true → (s.state = CrumbleState.warning ∧ s.despawned = false)

/-- The invariant is preserved by every event. -/
theorem crumbleStep_inv (s : CrumbleSeg) (e : CrumbleEvent)
    (h : CrumbleInv s) : CrumbleInv (crumbleStep s e) := by
  cases e with
  | touch =>
    simp only [crumbleStep]
    by_cases hc : s.despawned = false ∧ s.state = CrumbleState.stable
    · rw [if_pos hc]
      intro _
      exact ⟨rfl, hc.1⟩
    · rw [if_neg hc]
      exact h
  | timerFire =>
    simp only [crumbleStep]
    by_cases hc : s.timerPending = true
    · rw [if_pos hc]
      intro hcontra
      exact absurd hcontra (by simp)
    · rw [if_neg hc]
      exact h
  | reachLava =>
    simp only [crumbleStep]
    by_cases hc : s.state = CrumbleState.falling
    · rw [if_pos hc]
      intro hp
      have hw := (h hp).1
      rw [hw] at hc
      exact absurd hc (by simp)
    · rw [if_neg hc]
      exact h
  | despawn =>
    simp only [crumbleStep]
    intro hcontra
    exact absurd hcontra (by simp)

/-- The invariant holds along any run from a fresh segment. -/
theorem runCrumble_inv (es : List CrumbleEvent) :
    CrumbleInv (runCrumble crumbleInit es) := by
  suffices h : ∀ s, CrumbleInv s → CrumbleInv (runCrumble s es) by
    refine h crumbleInit ?_
    intro hcontra
    exact absurd hcontra (by simp [crumbleInit])
  induction es with
  | nil => intro s hs; exact hs
  | cons e rest ih =>
    intro s hs
    exact ih (crumbleStep s e) (crumbleStep_inv s e hs)

/-- Every step from an invariant-satisfying segment either keeps the state
or follows a forward lifecycle edge. -/
theorem crumbleStep_no_skip (s : CrumbleSeg) (e : CrumbleEvent)
    (h : CrumbleInv s) :
    (crumbleStep s e).state = s.state ∨
      crumbleEdge s.state (crumbleStep s e).state := by
  cases e with
  | touch =>
    simp only [crumbleStep]
    by_cases hc : s.despawned = false ∧ s.state = CrumbleState.stable
    · rw [if_pos hc]
      right
      rw [hc.2]
      trivial
    · rw [if_neg hc]
      left; rfl
  | timerFire =>
    simp only [crumbleStep]
    by_cases hc : s.timerPending = true
    · rw [if_pos hc]
      right
      rw [(h hc).1]
      trivial
    · rw [if_neg hc]
      left; rfl
  | reachLava =>
    simp only [crumbleStep]
    by_cases hc : s.state = CrumbleState.falling
    · rw [if_pos hc]
      right
      rw [hc]
      trivial
    · rw [if_neg hc]
      left; rfl
  | despawn =>
    simp only [crumbleStep]
    left
    trivial

/-- Once despawned while in Warning with its timer canceled, a segment
stays in Warning forever: no later event can move it. -/
theorem crumble_despawned_warning_stays (s : CrumbleSeg)
    (hd : s.despawned = true) (hw : s.state = CrumbleState.warning)
    (htp : s.timerPending = false)
    (es : List CrumbleEvent) :
    (runCrumble s es).state = CrumbleState.warning ∧
      (runCrumble s es).despawned = true ∧
      (runCrumble s es).timerPending = false := by
  induction es generalizing s with
  | nil => exact ⟨hw, hd, htp⟩
  | cons e rest ih =>
    have hstep : (crumbleStep s e).state = CrumbleState.warning ∧
        (crumbleStep s e).despawned = true ∧
        (crumbleStep s e).timerPending = false := by
      cases e with
      | touch =>
        simp only [crumbleStep]
        rw [if_neg (by
          intro hcontra
          rw [hd] at hcontra
          exact absurd hcontra.1 (by simp))]
        exact ⟨hw, hd, htp⟩
      | timerFire =>
        simp only [crumbleStep]
        rw [if_neg (by rw [htp]; simp)]
        exact ⟨hw, hd, htp⟩
      | reachLava =>
        simp only [crumbleStep]
        rw [if_neg (by rw [hw]; simp)]
        exact ⟨hw, hd, htp⟩
      | despawn =>
        simp only [crumbleStep]
        exact ⟨hw, by trivial, by trivial⟩
    exact ih (crumbleStep s e) hstep.2.1 hstep.1 hstep.2.2

/-- C5: crumble lifecycle safety.  Along any event run from a fresh
segment, every further event either leaves the crumble state unchanged or
moves it along exactly one forward edge (Stable to Warning, Warning to
Falling, Falling to Destroyed — no state is ever skipped); and a segment
that is despawned while in Warning has its pending timer canceled and
never reaches Falling afterwards. -/
theorem crumble_lifecycle (es : List CrumbleEvent) :
    (∀ e, (crumbleStep (runCrumble crumbleInit es) e).state =
        (runCrumble crumbleInit es).state ∨
      crumbleEdge (runCrumble crumbleInit es).state
        (crumbleStep (runCrumble crumbleInit es) e).state) ∧
    ((runCrumble crumbleInit es).despawned = true →
     (runCrumble crumbleInit es).state = CrumbleState.warning →
     ∀ es2, (runCrumble (runCrumble crumbleInit es) es2).state ≠
       CrumbleState.falling) := by
  have hinv := runCrumble_inv es
  constructor
  · intro e
    exact crumbleStep_no_skip (runCrumble crumbleInit es) e hinv
  · intro hd hw es2
    have htp : (runCrumble crumbleInit es).timerPending = false := by
      by_cases hp : (runCrumble crumbleInit es).timerPending = true
      · have := (hinv hp).2
        rw [hd] at this
        exact absurd this (by simp)
      · simpa using hp
    have hstays := crumble_despawned_warning_stays
      (runCrumble crumbleInit es) hd hw htp es2
    rw [hstays.1]
    simp

/-- Witness for C5: the run touch then despawn leaves the segment
despawned in Warning, and firing the (canceled) timer afterwards does not
reach Falling. -/
theorem crumble_lifecycle_witness :
    (runCrumble (runCrumble crumbleInit
      [CrumbleEvent.touch, CrumbleEvent.despawn])
      [CrumbleEvent.timerFire]).state ≠ CrumbleState.falling :=
  (crumble_lifecycle [CrumbleEvent.touch, CrumbleEvent.despawn]).2
    (by decide) (by decide) [CrumbleEvent.timerFire]

/-! Sliding window maintenance of Game.updateTrack (part_000 lines
6106-6124) with CONFIG.track.segmentsToGenerateAhead = 8 and
CONFIG.track.segmentsToKeepBehind = 4 (lines 167-173). -/

/-- CONFIG.track.segmentsToGenerateAhead. -/
def segmentsToGenerateAhead : ℕ := 8

/-- CONFIG.track.segmentsToKeepBehind. -/
def segmentsToKeepBehind : ℕ := 4

/-- The index chosen by generateSegment (part_000 lines 6180-6181): one
past the last segment's index, or 0 when the track is empty (the default
previous segment carries index -1). -/
def nextSegmentIndex (segs : List ℕ) : ℕ :=
  match segs.getLast? with
  | some i => i + 1
  | none => 0

/-- The generation loop of updateTrack (lines 6107-6111): while the
segment count is below the desired count, generate one more segment from
the current last one. -/
def generateLoop (segs : List ℕ) (desired : ℕ) : List ℕ :=
  if segs.length < desired then
    generateLoop (segs ++ [nextSegmentIndex segs]) desired
  else
    segs
termination_by desired - segs.length
decreasing_by
  simp only [List.length_append, List.length_cons, List.length_nil]
  omega

/-- updateTrack window maintenance (lines 6106-6124): generate up to
playerSegmentIndex + segmentsToGenerateAhead segments, then splice the
first playerSegmentIndex - segmentsToKeepBehind segments off the front
(when that count is positive) and shift the player's segment index by the
same amount. -/
def updateTrackWindow (segs : List ℕ) (playerSegmentIndex : ℕ) :
    List ℕ × ℕ :=
  let desired := playerSegmentIndex + segmentsToGenerateAhead
  let generated := generateLoop segs desired
  let despawnCount : ℤ := (playerSegmentIndex : ℤ) - segmentsToKeepBehind
  if 0 < despawnCount then
    (generated.drop despawnCount.toNat,
      playerSegmentIndex - despawnCount.toNat)
  else
    (generated, playerSegmentIndex)

/-- The generation loop produces exactly max of the start length and the
desired count, stopping exactly at the target. -/
theorem generateLoop_length (segs : List ℕ) (desired : ℕ) :
    (generateLoop segs desired).length = max segs.length desired := by
  by_cases h : segs.length < desired
  · rw [generateLoop, if_pos h]
    have := generateLoop_length (segs ++ [nextSegmentIndex segs]) desired
    rw [this]
    simp only [List.length_append, List.length_cons, List.length_nil]
    omega
  · rw [generateLoop, if_neg h]
    omega
termination_by desired - segs.length
decreasing_by
  simp only [List.length_append, List.length_cons, List.length_nil]
  omega

/-- C6: segment window invariant of updateTrack.  Starting from any track
whose length does not exceed the generation target (as maintained by every
previous call), after the generate-and-despawn pass the active list length
equals the adjusted player segment index plus segmentsToGenerateAhead —
generation stops exactly at the target, never beyond it — and no remaining
array slot lies more than segmentsToKeepBehind positions behind the
adjusted player segment index. -/
theorem updateTrack_window_invariant (segs : List ℕ) (playerSegmentIndex : ℕ)
    (hlen : segs.length ≤ playerSegmentIndex + segmentsToGenerateAhead) :
    ((updateTrackWindow segs playerSegmentIndex).1).length =
      (updateTrackWindow segs playerSegmentIndex).2 + segmentsToGenerateAhead ∧
    ∀ pos < ((updateTrackWindow segs playerSegmentIndex).1).length,
      ((updateTrackWindow segs playerSegmentIndex).2 : ℤ) - pos ≤
        segmentsToKeepBehind := by
  unfold updateTrackWindow
  have hgen := generateLoop_length segs
    (playerSegmentIndex + segmentsToGenerateAhead)
  by_cases hd : 0 < (playerSegmentIndex : ℤ) - segmentsToKeepBehind
  · rw [if_pos hd]
    simp only [List.length_drop]
    constructor
    · rw [hgen]
      simp only [segmentsToGenerateAhead, segmentsToKeepBehind] at *
      omega
    · intro pos _
      simp only [segmentsToGenerateAhead, segmentsToKeepBehind] at *
      omega
  · rw [if_neg hd]
    constructor
    · rw [hgen]
      simp only [segmentsToGenerateAhead, segmentsToKeepBehind] at *
      omega
    · intro pos _
      simp only [segmentsToGenerateAhead, segmentsToKeepBehind] at *
      omega

/-- Witness for C6: a concrete track of three segments with the player on
array slot 6 generates up to 14 segments, despawns the first two and
leaves 12 = 4 + 8 segments with the player slot shifted to 4. -/
theorem updateTrack_window_invariant_witness :
    ((updateTrackWindow [0, 1, 2] 6).1).length =
      (updateTrackWindow [0, 1, 2] 6).2 + segmentsToGenerateAhead ∧
    ∀ pos < ((updateTrackWindow [0, 1, 2] 6).1).length,
      ((updateTrackWindow [0, 1, 2] 6).2 : ℤ) - pos ≤ segmentsToKeepBehind :=
  updateTrack_window_invariant [0, 1, 2] 6
    (by simp [segmentsToGenerateAhead])

/-! Ground-segment resolution of CharacterController.checkGrounded
(part_000 lines 2667-2734): the hit collider's owning body handle is
compared against each entry of the full active segment list in order,
breaking at the first match. -/

/-- An active track segment as seen by the ground check: its array slot
index and the handle of its physics body. -/
structure TrackSeg where
  index : ℕ
  handle : ℕ
deriving DecidableEq, Repr

/-- The segment-matching loop of checkGrounded (part_000 lines 2690-2706):
iterate over the ENTIRE trackSegments list and return the first segment
whose body handle equals the hit body's handle. -/
def matchGroundSegment (segments : List TrackSeg) (hitHandle : ℕ) :
    Option TrackSeg :=
  segments.find? (fun segment => segment.handle == hitHandle)

/-- C9 counterexample: two active lists that agree on the eight slots
0 to 7 — covering any small window around a player whose last known
segment slot is 0 — but differ only at slot 10 give different resolution
results (a match at slot 10 versus no match), so the result of the ground
check DOES depend on segments outside any such window: the loop scans the
whole list, not a window. -/
theorem checkGrounded_scans_outside_window :
    (List.take 8
        [TrackSeg.mk 0 1, TrackSeg.mk 1 2, TrackSeg.mk 2 3, TrackSeg.mk 3 4,
         TrackSeg.mk 4 5, TrackSeg.mk 5 6, TrackSeg.mk 6 7, TrackSeg.mk 7 8,
         TrackSeg.mk 8 9, TrackSeg.mk 9 10, TrackSeg.mk 10 0] =
      List.take 8
        [TrackSeg.mk 0 1, TrackSeg.mk 1 2, TrackSeg.mk 2 3, TrackSeg.mk 3 4,
         TrackSeg.mk 4 5, TrackSeg.mk 5 6, TrackSeg.mk 6 7, TrackSeg.mk 7 8,
         TrackSeg.mk 8 9, TrackSeg.mk 9 10, TrackSeg.mk 10 99]) ∧
    matchGroundSegment
        [TrackSeg.mk 0 1, TrackSeg.mk 1 2, TrackSeg.mk 2 3, TrackSeg.mk 3 4,
         TrackSeg.mk 4 5, TrackSeg.mk 5 6, TrackSeg.mk 6 7, TrackSeg.mk 7 8,
         TrackSeg.mk 8 9, TrackSeg.mk 9 10, TrackSeg.mk 10 0] 0 =
      some (TrackSeg.mk 10 0) ∧
    matchGroundSegment
        [TrackSeg.mk 0 1, TrackSeg.mk 1 2, TrackSeg.mk 2 3, TrackSeg.mk 3 4,
         TrackSeg.mk 4 5, TrackSeg.mk 5 6, TrackSeg.mk 6 7, TrackSeg.mk 7 8,
         TrackSeg.mk 8 9, TrackSeg.mk 9 10, TrackSeg.mk 10 99] 0 = none := by
  refine ⟨rfl, rfl, rfl⟩

/-- C9 (amended): ground detection resolves the segment by scanning the
entire active segment list in order and returning the first body-handle
match — an O(segments) pass, not an O(window) one; a matching segment is
found however many slots it lies beyond the player's position, as
witnessed for every track length n with the sole match in the last slot.
(The windowed search over slots idx-3 to idx+3 exists only in the
nearest-segment tracking of updateTrack, part_000 lines 6091-6103.) -/
theorem checkGrounded_matches_whole_list (n : ℕ) :
    matchGroundSegment
        ((List.range n).map (fun i => TrackSeg.mk i (i + 1)) ++
          [TrackSeg.mk n 0]) 0 =
      some (TrackSeg.mk n 0) := by
  unfold matchGroundSegment
  rw [List.find?_append]
  have h1 : ((List.range n).map (fun i => TrackSeg.mk i (i + 1))).find?
      (fun segment => segment.handle == 0) = none := by
    rw [List.find?_eq_none]
    intro seg hseg
    simp only [List.mem_map, List.mem_range] at hseg
    obtain ⟨i, _, rfl⟩ := hseg
    simp
  rw [h1]
  rfl
